import Mathlib

/-!
Verification of the epoch-state reconciliation and application-aggregation
pipeline of the Grants-Gateway-API repository (Octant and Giveth DAOIP-5
converters), as a shallow embedding in Lean 4.

The embedding follows `attached_assets/octant-daoip5-with-fallback_1751025339268.py`
(class `DAOIP5Converter`, methods `generate_applications`, `_wei_to_usd_str`,
`_get_eth_rate_for_epoch`, `_generate_caip10_address`; class `OctantAPIClient`,
method `_make_request`) and
`attached_assets/giveth_daoip5_transformer_1751127208591.py`
(method `transform_to_caip10`).

Modelling conventions:
- Python `int` is `Int`; Python strings are `String`; JSON absence is `Option`.
- Python float exchange rates are modelled by `ℚ`; the only rate facts used by
  the theorems below are independent of binary-float rounding.
- A Python exception propagating out of a function is modelled by the function
  returning `none` in an outer `Option` layer.
- Python `dict` (insertion-ordered, unique keys) is an association list with
  first-occurrence update and append-on-new-key.
-/

/-- Strip leading and trailing whitespace from a character list (the
whitespace stripping of Python `int(s)`, restricted to ASCII whitespace). -/
def stripWs (cs : List Char) : List Char :=
  ((cs.dropWhile Char.isWhitespace).reverse.dropWhile Char.isWhitespace).reverse

/-- Python `int(s)` applied to an amount string: optional surrounding
whitespace, an optional sign, then decimal digits; anything else raises
(modelled as `none`).  (Underscore separators and non-ASCII digits, which
Python also accepts, never occur in this data and are not modelled.) -/
def parsePyInt (s : String) : Option Int :=
  let cs := stripWs s.toList
  match cs with
  | [] => none
  | c :: rest =>
    let signed : Bool × List Char :=
      if c = '-' then (true, rest)
      else if c = '+' then (false, rest)
      else (false, c :: rest)
    if signed.2 ≠ [] ∧ signed.2.all Char.isDigit then
      let n : Nat := signed.2.foldl (fun a d => a * 10 + (d.toNat - '0'.toNat)) 0
      some (if signed.1 then -(n : Int) else (n : Int))
    else none

/-- One record from the allocations endpoint (`allocations_data["allocations"]`):
`{project, donor, amount}` with the amount a base-unit (wei) integer string. -/
structure RawAllocation where
  project : String
  donor : String
  amount : String
deriving DecidableEq

/-- One record from the rewards endpoint (`rewards_data["rewards"]`):
`{address, allocated, matched}`. -/
structure RawReward where
  address : String
  allocated : String
  matched : String
deriving DecidableEq

/-- One leaf of the merkle tree (`merkle_data["leaves"]`). -/
structure MerkleLeaf where
  address : String
  amount : String
deriving DecidableEq

/-- The merkle tree document (`merkle_data`): root plus leaves. -/
structure MerkleData where
  root : String
  leaves : List MerkleLeaf
deriving DecidableEq

/-- The per-project accumulator built by `generate_applications`
(`project_allocations[project]`): running total, donor list, record list. -/
structure ProjectData where
  totalAllocated : Int
  donors : List String
  allocations : List RawAllocation
deriving DecidableEq

/-- Python dict insert/update for the `project_allocations` mapping: the first
entry with the allocation's project key is updated in place; a missing key is
appended (insertion order). -/
def upsertAlloc (a : RawAllocation) (amt : Int) :
    List (String × ProjectData) → List (String × ProjectData)
  | [] => [(a.project, ⟨amt, [a.donor], [a]⟩)]
  | (k, d) :: rest =>
    if k == a.project then
      (k, ⟨d.totalAllocated + amt, d.donors ++ [a.donor], d.allocations ++ [a]⟩) :: rest
    else
      (k, d) :: upsertAlloc a amt rest

/-- The grouping loop of `generate_applications` (`for allocation in
allocations: ... project_allocations[project]["totalAllocated"] += int(amount) ...`),
threading the accumulated mapping; `int(amount)` raising aborts the whole
call (`none`). -/
def groupAllocationsAux (acc : List (String × ProjectData)) :
    List RawAllocation → Option (List (String × ProjectData))
  | [] => some acc
  | a :: rest =>
    match parsePyInt a.amount with
    | none => none
    | some amt => groupAllocationsAux (upsertAlloc a amt acc) rest

/-- Group raw allocations by project address, starting from the empty mapping. -/
def groupAllocations (l : List RawAllocation) : Option (List (String × ProjectData)) :=
  groupAllocationsAux [] l

/-- Sum of the per-project totals of a grouped mapping. -/
def sumTotals (m : List (String × ProjectData)) : Int :=
  (m.map (fun kv => kv.2.totalAllocated)).sum

/-- Parse every input allocation amount, in order; `none` if any fails. -/
def parseAmounts : List RawAllocation → Option (List Int)
  | [] => some []
  | a :: rest =>
    match parsePyInt a.amount, parseAmounts rest with
    | some amt, some s => some (amt :: s)
    | _, _ => none

/-- Sum of all input allocation amounts, provided every amount string parses. -/
def sumAmounts (l : List RawAllocation) : Option Int :=
  (parseAmounts l).map List.sum

/-- The `/info/chain-info` document as used by `_generate_caip10_address`:
only the (optional) `chainId` field matters; `chain_info.get("chainId", 1)`
defaults to 1. -/
structure ChainInfo where
  chainId : Option Int
deriving DecidableEq

/-- `DAOIP5Converter._generate_caip10_address`: with no chain info loaded,
`"eip155:1:" + address`; otherwise `"eip155:" + chainId + ":" + address`
with chain id defaulting to 1. -/
def generateCaip10Address (chainInfo : Option ChainInfo) (address : String) : String :=
  match chainInfo with
  | none => "eip155:1:" ++ address
  | some ci => "eip155:" ++ toString (ci.chainId.getD 1) ++ ":" ++ address

/-- `GivethDaoip5Transformer.transform_to_caip10`: empty address maps to the
empty string; otherwise `"eip155:" + chainId + ":" + address` where the chain
id is the `network` argument when non-empty (its Python default is `"1"`) and
`"1"` otherwise. -/
def transformToCaip10 (address : String) (network : String) : String :=
  if address = "" then ""
  else
    let chainId := if network = "" then "1" else network
    "eip155:" ++ chainId ++ ":" ++ address

/-- Python truthiness of an optional float rate (`if not rate` / `if rate`):
`None` and `0.0` are falsy, every other value truthy. -/
def rateTruthy : Option ℚ → Bool
  | none => false
  | some r => decide (r ≠ 0)

/-- The upstream rate endpoints, as oracles indexed by the number of calls of
that kind made so far within the run: `hist n` is the result of the `n`-th
call to `get_eth_price_for_epoch_end`, `curr n` of the `n`-th call to
`get_eth_to_usd_rate()` with no date. -/
structure RateOracle where
  hist : Nat → Option ℚ
  curr : Nat → Option ℚ

/-- The converter's mutable rate state: `cache` is `self.eth_usd_rates`
(insertion-ordered, unique keys), `histLog` records the epoch argument of each
historical-rate request issued so far, `currCalls` counts current-rate
requests. -/
structure RateCacheState where
  cache : List (Nat × ℚ)
  histLog : List Nat
  currCalls : Nat
deriving DecidableEq

/-- First-match lookup in the cache association list (Python dict lookup). -/
def lookupCache (m : List (Nat × ℚ)) (e : Nat) : Option ℚ :=
  (m.find? (fun kv => kv.1 == e)).map (fun kv => kv.2)

/-- The `if rate: self.eth_usd_rates[epoch] = rate` store step of
`_get_eth_rate_for_epoch`: cache the fetched rate only when truthy. -/
def storeIfTruthy (s : RateCacheState) (e : Nat) (rate : Option ℚ) : RateCacheState :=
  match rate with
  | some r => if r ≠ 0 then { s with cache := s.cache ++ [(e, r)] } else s
  | none => s

/-- `DAOIP5Converter._get_eth_rate_for_epoch`: return the cached rate if the
epoch is in `self.eth_usd_rates`; otherwise issue a historical-rate request,
fall back to a current-rate request when that result is falsy, store the
result in the cache only when truthy, and return it. -/
def getEthRateForEpoch (o : RateOracle) (s : RateCacheState) (e : Nat) :
    Option ℚ × RateCacheState :=
  match lookupCache s.cache e with
  | some r => (some r, s)
  | none =>
    let h := o.hist s.histLog.length
    let s1 : RateCacheState := { s with histLog := s.histLog ++ [e] }
    let fetched : Option ℚ × RateCacheState :=
      if rateTruthy h then (h, s1)
      else (o.curr s1.currCalls, { s1 with currCalls := s1.currCalls + 1 })
    (fetched.1, storeIfTruthy fetched.2 e fetched.1)

/-- A sequence of rate lookups within one run, threading the cache state. -/
def runLookups (o : RateOracle) (s : RateCacheState) (es : List Nat) : RateCacheState :=
  es.foldl (fun st e => (getEthRateForEpoch o st e).2) s

/-- Number of historical-rate requests issued so far for epoch `e`. -/
def histCount (e : Nat) (s : RateCacheState) : Nat :=
  s.histLog.count e

/-- Python `f"{x:.2f}"` on the USD amount: fixed two decimal places.  (Python
rounds the binary float half-to-even; this model rounds the exact rational to
the nearest cent.  No theorem below depends on the rounding mode.) -/
def formatUsd2 (q : ℚ) : String :=
  let cents : Int := round (q * 100)
  let sign := if cents < 0 then "-" else ""
  let n := cents.natAbs
  let frac := n % 100
  sign ++ toString (n / 100) ++ "." ++ (if frac < 10 then "0" ++ toString frac else toString frac)

/-- The body of `DAOIP5Converter._wei_to_usd_str` after the rate has been
resolved: `if not eth_rate: return None`; then `int(wei_amount)` (a parse
failure is caught and yields `None`), division by `10**18`, multiplication by
the rate, and two-decimal formatting. -/
def weiToUsdStr (rate : Option ℚ) (weiAmount : String) : Option String :=
  match rate with
  | none => none
  | some r =>
    if r = 0 then none
    else
      match parsePyInt weiAmount with
      | none => none
      | some w => some (formatUsd2 ((w : ℚ) / 10 ^ 18 * r))

/-- `DAOIP5Converter._wei_to_usd_str` itself: resolve the rate for the epoch
through the cache, then convert. -/
def weiToUsdStrEpoch (o : RateOracle) (s : RateCacheState) (e : Nat)
    (weiAmount : String) : Option String × RateCacheState :=
  let resolved := getEthRateForEpoch o s e
  (weiToUsdStr resolved.1 weiAmount, resolved.2)

/-- The outcome of one HTTP GET attempt inside `_make_request`: a 2xx response
with parsed body, an HTTP error status (4xx/5xx, raised by
`raise_for_status`), or a network-level failure with no response (timeout,
connection error). -/
inductive FetchOutcome (α : Type) where
  | ok (body : α)
  | httpErr (status : Nat)
  | netErr
deriving DecidableEq

/-- The expected-absence test of `_make_request`: the `allow_404_400` flag is
set and the status is 400 or 404. -/
def isExpectedAbsence (allow : Bool) (status : Nat) : Bool :=
  allow && (status == 400 || status == 404)

/-- The retry loop of `OctantAPIClient._make_request`, structurally recursive
on the number of attempts remaining (`attempt` is the 0-based index of the
current attempt, `remaining` the number of loop iterations left).  Returns the
optional body together with the list of back-off delays slept, in order; a
delay of `retry_delay * 2 ** attempt` is slept only when another attempt
follows (`attempt < max_retries - 1`). -/
def makeRequestGo {α : Type} (oracle : Nat → FetchOutcome α) (allow : Bool)
    (baseDelay : ℚ) : Nat → Nat → Option α × List ℚ
  | _, 0 => (none, [])
  | attempt, remaining + 1 =>
    match oracle attempt with
    | .ok b => (some b, [])
    | .httpErr s =>
      if isExpectedAbsence allow s then (none, [])
      else if remaining > 0 then
        let r := makeRequestGo oracle allow baseDelay (attempt + 1) remaining
        (r.1, baseDelay * 2 ^ attempt :: r.2)
      else (none, [])
    | .netErr =>
      if remaining > 0 then
        let r := makeRequestGo oracle allow baseDelay (attempt + 1) remaining
        (r.1, baseDelay * 2 ^ attempt :: r.2)
      else (none, [])

/-- `OctantAPIClient._make_request` over an oracle of per-attempt outcomes:
up to `maxRetries` attempts starting at attempt index 0. -/
def makeRequest {α : Type} (oracle : Nat → FetchOutcome α) (allow : Bool)
    (baseDelay : ℚ) (maxRetries : Nat) : Option α × List ℚ :=
  makeRequestGo oracle allow baseDelay 0 maxRetries

/-- `OctantConfig.max_retries` default. -/
def defaultMaxRetries : Nat := 3

/-- An attempt outcome on which `_make_request` retries (everything except a
success and an expected-absence status): a network failure, or an HTTP error
status that is not an expected absence under the flag. -/
def retryFailure {α : Type} (allow : Bool) : FetchOutcome α → Prop
  | .ok _ => False
  | .httpErr s => isExpectedAbsence allow s = false
  | .netErr => True

/-- One entry of a `fundsAsked` / `fundsApproved` list: `{amount, denomination}`
with the optional `"type"` discriminator used for matched funding. -/
structure FundsEntry where
  amount : String
  denomination : String
  type : Option String
deriving DecidableEq

/-- One payout entry as built by `generate_applications`: the fixed
`"OnchainTransaction"` kind is implicit; `value.amount`, `value.merkleRoot`,
`value.recipient`, and the `proof` string are kept. -/
structure Payout where
  amount : String
  merkleRoot : String
  recipient : String
  proof : String
deriving DecidableEq

/-- One generated DAOIP-5 grant application.  The fixed `"GrantApplication"`
kind and the wall-clock `createdAt` timestamp (a `datetime.now()` call, not a
function of the inputs) are not modelled. -/
structure Application where
  id : String
  grantPoolId : String
  grantPoolName : String
  projectId : String
  projectName : String
  fundsAsked : List FundsEntry
  fundsApproved : List FundsEntry
  fundsApprovedInUSD : Option String
  status : String
  payouts : List Payout
deriving DecidableEq

/-- The reward-search loop of `generate_applications`: first reward record
whose `address` equals the project address, if rewards data is present. -/
def findReward (rewardsData : Option (List RawReward)) (project : String) :
    Option RawReward :=
  match rewardsData with
  | none => none
  | some rs => rs.find? (fun r => r.address == project)

/-- The status determination of `generate_applications`: `"pending"` without a
reward record; with one, `"funded"` when `int(allocated) + int(matched) > 0`,
else `"approved"` when `int(allocated) > 0`, else `"pending"`.  An `int()`
failure raises (`none`). -/
def computeStatus (projectRewards : Option RawReward) : Option String :=
  match projectRewards with
  | none => some "pending"
  | some r => do
    let a ← parsePyInt r.allocated
    let m ← parsePyInt r.matched
    pure (if a + m > 0 then "funded" else if a > 0 then "approved" else "pending")

/-- The payout-construction block of `generate_applications`: only entered
when both a reward record and merkle data are present; the first leaf whose
address equals the project address yields the single payout entry; the loop
breaks after the first match. -/
def computePayouts (epoch : Nat) (projectRewards : Option RawReward)
    (merkleData : Option MerkleData) (project : String) : List Payout :=
  match projectRewards, merkleData with
  | some _, some t =>
    match t.leaves.find? (fun l => l.address == project) with
    | some leaf =>
      [⟨leaf.amount, t.root, project,
        "merkle_proof_epoch_" ++ toString epoch ++ "_" ++ project⟩]
    | none => []
  | _, _ => []

/-- The zero address used for pool and application identifiers. -/
def zeroAddr : String := "0x0000000000000000000000000000000000000000"

/-- Python truthiness of an optional string (`if matched_usd:`): `None` and
the empty string are falsy. -/
def optStrTruthy : Option String → Bool
  | none => false
  | some s => decide (s ≠ "")

/-- The per-project application construction of `generate_applications`:
reward lookup, status, payouts, the base application record, then — whenever a
reward record exists — the appended `matched_funding` entry and the
conditional USD recomputation from the combined amount.  The exchange rate is
the value the cache resolves for this epoch (`none` when unresolvable); `rate`
is constant across the conversions of one run once resolved. -/
def buildApplication (chainInfo : Option ChainInfo) (rate : Option ℚ)
    (epoch : Nat) (counter : Nat) (project : String) (data : ProjectData)
    (rewardsData : Option (List RawReward)) (merkleData : Option MerkleData) :
    Option Application := do
  let projectRewards := findReward rewardsData project
  let status ← computeStatus projectRewards
  let payouts := computePayouts epoch projectRewards merkleData project
  let baseApp : Application := {
    id := generateCaip10Address chainInfo zeroAddr ++ "?proposalId=" ++ toString counter
    grantPoolId := generateCaip10Address chainInfo zeroAddr ++ "?contractId=" ++ toString epoch
    grantPoolName := "Octant Epoch " ++ toString epoch
    projectId := generateCaip10Address chainInfo project ++ "?proposalId=1"
    projectName := "Project " ++ project.take 8 ++ "..."
    fundsAsked := [⟨"0", "ETH", none⟩]
    fundsApproved := [⟨toString data.totalAllocated, "ETH", none⟩]
    fundsApprovedInUSD := weiToUsdStr rate (toString data.totalAllocated)
    status := status
    payouts := payouts }
  match projectRewards with
  | none => pure baseApp
  | some r => do
    let matchedInt ← parsePyInt r.matched
    let totalAmount := toString (data.totalAllocated + matchedInt)
    let app1 := { baseApp with
      fundsApproved := baseApp.fundsApproved ++ [⟨r.matched, "ETH", some "matched_funding"⟩] }
    let matchedUsd := weiToUsdStr rate r.matched
    pure (if optStrTruthy matchedUsd then
            { app1 with fundsApprovedInUSD := weiToUsdStr rate totalAmount }
          else app1)

/-- The application-construction loop over the grouped projects, in insertion
order, with the 1-based `app_counter`. -/
def buildApplications (chainInfo : Option ChainInfo) (rate : Option ℚ)
    (epoch : Nat) (counter : Nat) (groups : List (String × ProjectData))
    (rewardsData : Option (List RawReward)) (merkleData : Option MerkleData) :
    Option (List Application) :=
  match groups with
  | [] => some []
  | (p, d) :: rest => do
    let app ← buildApplication chainInfo rate epoch counter p d rewardsData merkleData
    let apps ← buildApplications chainInfo rate epoch (counter + 1) rest rewardsData merkleData
    pure (app :: apps)

/-- The three epoch states of the spec's data model (`EpochState`), as
computed by `generate_applications` into `epoch_status`. -/
inductive EpochState where
  | noAllocations
  | notFinalized
  | completed
deriving DecidableEq

/-- The `epoch_status` string for each state. -/
def EpochState.statusString : EpochState → String
  | .noAllocations => "no_allocations"
  | .notFinalized => "not_finalized"
  | .completed => "completed"

/-- The Epoch Status Resolver: the `if`/`elif` classification at the top of
`generate_applications`, as a pure function of the three presence booleans. -/
def resolveEpochStatus (hasAlloc hasRewards hasMerkle : Bool) : EpochState :=
  if !hasAlloc then .noAllocations
  else if !hasRewards || !hasMerkle then .notFinalized
  else .completed

/-- Presence of allocations: `bool(allocations_data and
allocations_data.get("allocations"))` — the document is present and its
allocation list is non-empty. -/
def hasAllocB (allocationsData : Option (List RawAllocation)) : Bool :=
  match allocationsData with
  | none => false
  | some l => !l.isEmpty

/-- The `note_map` text attached to a placeholder result. -/
def noteFor : EpochState → String
  | .noAllocations => "This epoch has no allocations yet or has not been concluded"
  | .notFinalized => "This epoch has allocations but has not been finalized yet (no rewards/merkle data available)"
  | .completed => "This epoch has not been concluded yet"

/-- The single grant pool of a `generate_applications` result: name,
application list, the `_note` placeholder annotation (absent on the concluded
path), the `_epoch_status` string, and the three presence booleans. -/
structure GrantPoolOutput where
  name : String
  applications : List Application
  note : Option String
  epochStatus : String
  hasAllocations : Bool
  hasRewards : Bool
  hasMerkleTree : Bool
deriving DecidableEq

/-- `DAOIP5Converter.generate_applications` for one epoch, over already
fetched inputs: classify the epoch, emit the annotated empty placeholder for
a non-concluded epoch, otherwise group allocations and build one application
per project.  The outer `Option` is `none` exactly when an `int()` conversion
raises out of the call. -/
def generateApplications (chainInfo : Option ChainInfo) (rate : Option ℚ)
    (epoch : Nat) (allocationsData : Option (List RawAllocation))
    (rewardsData : Option (List RawReward)) (merkleData : Option MerkleData) :
    Option GrantPoolOutput :=
  let hasAlloc := hasAllocB allocationsData
  let st := resolveEpochStatus hasAlloc rewardsData.isSome merkleData.isSome
  if st = EpochState.completed then do
    let groups ← groupAllocations (allocationsData.getD [])
    let apps ← buildApplications chainInfo rate epoch 1 groups rewardsData merkleData
    pure { name := "Octant Epoch " ++ toString epoch
           applications := apps
           note := none
           epochStatus := EpochState.completed.statusString
           hasAllocations := true
           hasRewards := rewardsData.isSome
           hasMerkleTree := merkleData.isSome }
  else
    some { name := "Octant Epoch " ++ toString epoch
           applications := []
           note := some (noteFor st)
           epochStatus := st.statusString
           hasAllocations := hasAlloc
           hasRewards := rewardsData.isSome
           hasMerkleTree := merkleData.isSome }

/-- C1: the Epoch Status Resolver is a pure function of the three presence
inputs satisfying the invariant table exhaustively — allocations absent gives
NoAllocations regardless of the rest, allocations present with rewards or
merkle absent gives NotFinalized, all three present gives Completed — and
`generate_applications` aggregates into applications only in the Completed
state; otherwise it emits the annotated empty placeholder. -/
theorem epoch_status_resolver_classification :
    (∀ ha hr hm : Bool,
      (ha = false → resolveEpochStatus ha hr hm = EpochState.noAllocations) ∧
      (ha = true → (hr = false ∨ hm = false) →
        resolveEpochStatus ha hr hm = EpochState.notFinalized) ∧
      (ha = true → hr = true → hm = true →
        resolveEpochStatus ha hr hm = EpochState.completed)) ∧
    (∀ (ci : Option ChainInfo) (rate : Option ℚ) (epoch : Nat)
      (ad : Option (List RawAllocation)) (rd : Option (List RawReward))
      (md : Option MerkleData) (out : GrantPoolOutput),
      generateApplications ci rate epoch ad rd md = some out →
      resolveEpochStatus (hasAllocB ad) rd.isSome md.isSome ≠ EpochState.completed →
      out.applications = [] ∧
      out.note = some (noteFor (resolveEpochStatus (hasAllocB ad) rd.isSome md.isSome)) ∧
      out.epochStatus = (resolveEpochStatus (hasAllocB ad) rd.isSome md.isSome).statusString) := by
  constructor
  · decide
  · intro ci rate epoch ad rd md out hgen hne
    unfold generateApplications at hgen
    rw [if_neg hne] at hgen
    cases hgen
    exact ⟨rfl, rfl, rfl⟩

/-- Witness for C1: concrete instances of the table and of the placeholder
path at epoch 7 with all three inputs absent. -/
theorem epoch_status_resolver_classification_witness :
    resolveEpochStatus false true true = EpochState.noAllocations ∧
    ((⟨"Octant Epoch 7", [], some (noteFor EpochState.noAllocations),
       "no_allocations", false, false, false⟩ : GrantPoolOutput).applications = [] ∧
     (⟨"Octant Epoch 7", [], some (noteFor EpochState.noAllocations),
       "no_allocations", false, false, false⟩ : GrantPoolOutput).note =
        some (noteFor (resolveEpochStatus (hasAllocB none)
          (Option.isSome (none : Option (List RawReward)))
          (Option.isSome (none : Option MerkleData)))) ∧
     (⟨"Octant Epoch 7", [], some (noteFor EpochState.noAllocations),
       "no_allocations", false, false, false⟩ : GrantPoolOutput).epochStatus =
        (resolveEpochStatus (hasAllocB none)
          (Option.isSome (none : Option (List RawReward)))
          (Option.isSome (none : Option MerkleData))).statusString) :=
  ⟨((epoch_status_resolver_classification.1 false true true).1 rfl),
   (epoch_status_resolver_classification.2 none none 7 none none none
      ⟨"Octant Epoch 7", [], some (noteFor EpochState.noAllocations),
       "no_allocations", false, false, false⟩ (by decide) (by decide))⟩

/-- Upserting one allocation adds exactly its parsed amount to the sum of all
per-project totals. -/
theorem sumTotals_upsertAlloc (a : RawAllocation) (amt : Int) :
    ∀ m : List (String × ProjectData), sumTotals (upsertAlloc a amt m) = sumTotals m + amt := by
  intro m
  induction m with
  | nil => simp [upsertAlloc, sumTotals]
  | cons kv rest ih =>
    obtain ⟨k, d⟩ := kv
    by_cases hk : (k == a.project) = true
    · simp [upsertAlloc, hk, sumTotals]
      ring
    · simp only [upsertAlloc, hk, if_false, Bool.false_eq_true]
      simp [sumTotals] at ih ⊢
      omega

/-- The grouping loop preserves the total: a successful run over `l` starting
from accumulator `acc` parses every amount and grows the sum of per-project
totals by the sum of the parsed amounts. -/
theorem groupAllocationsAux_conservation :
    ∀ (l : List RawAllocation) (acc m : List (String × ProjectData)),
      groupAllocationsAux acc l = some m →
      ∃ s : List Int, parseAmounts l = some s ∧
        sumTotals m = sumTotals acc + s.sum := by
  intro l
  induction l with
  | nil =>
    intro acc m h
    simp [groupAllocationsAux] at h
    exact ⟨[], rfl, by simp [h]⟩
  | cons a rest ih =>
    intro acc m h
    simp only [groupAllocationsAux] at h
    cases hp : parsePyInt a.amount with
    | none => rw [hp] at h; cases h
    | some amt =>
      rw [hp] at h
      obtain ⟨s, hs, hsum⟩ := ih (upsertAlloc a amt acc) m h
      refine ⟨amt :: s, ?_, ?_⟩
      · simp [parseAmounts, hp, hs]
      · rw [hsum, sumTotals_upsertAlloc]
        simp [List.sum_cons]
        ring

/-- C2: conservation — whenever the Allocation Aggregator groups a list of raw
allocation records (all amount strings parsing as integers, which is exactly
when grouping succeeds), the sum of the per-project totals equals the sum of
all input allocation amounts, in exact integer arithmetic. -/
theorem allocation_aggregation_conservation :
    ∀ (l : List RawAllocation) (m : List (String × ProjectData)),
      groupAllocations l = some m → sumAmounts l = some (sumTotals m) := by
  intro l m h
  obtain ⟨s, hs, hsum⟩ := groupAllocationsAux_conservation l [] m h
  rw [sumAmounts, hs]
  simp only [Option.map]
  rw [hsum]
  simp [sumTotals]

/-- Witness for C2: the two scenario-C allocations to project 0xAA conserve
the total 1.5e18. -/
theorem allocation_aggregation_conservation_witness :
    sumAmounts
      [⟨"0xAA", "0xD1", "1000000000000000000"⟩, ⟨"0xAA", "0xD2", "500000000000000000"⟩] =
    some (sumTotals
      [("0xAA", ⟨1500000000000000000, ["0xD1", "0xD2"],
        [⟨"0xAA", "0xD1", "1000000000000000000"⟩, ⟨"0xAA", "0xD2", "500000000000000000"⟩]⟩)]) :=
  allocation_aggregation_conservation
    [⟨"0xAA", "0xD1", "1000000000000000000"⟩, ⟨"0xAA", "0xD2", "500000000000000000"⟩]
    [("0xAA", ⟨1500000000000000000, ["0xD1", "0xD2"],
      [⟨"0xAA", "0xD1", "1000000000000000000"⟩, ⟨"0xAA", "0xD2", "500000000000000000"⟩]⟩)]
    (by decide)

/-- Scenario C allocations: two donations to project 0xAA of 1e18 and 5e17. -/
def scenarioCAllocs : List RawAllocation :=
  [⟨"0xAA", "0xD1", "1000000000000000000"⟩, ⟨"0xAA", "0xD2", "500000000000000000"⟩]

/-- Scenario C rewards: one record for 0xAA, allocated 1.5e18, matched 0. -/
def scenarioCRewards : List RawReward := [⟨"0xAA", "1500000000000000000", "0"⟩]

/-- Scenario C merkle tree: root 0xR with one leaf for 0xAA. -/
def scenarioCMerkle : MerkleData := ⟨"0xR", [⟨"0xAA", "1500000000000000000"⟩]⟩

/-- Counterexample to C3 as stated: on the scenario-C input the status
determination takes the `total_reward > 0` branch (allocated 1.5e18 plus
matched 0 is positive), so the emitted application's lifecycle status is
"funded", not the claimed "approved". -/
theorem scenarioC_claimed_status_false :
    (generateApplications none none 7 (some scenarioCAllocs) (some scenarioCRewards)
        (some scenarioCMerkle)).map (fun o => o.applications.map (fun a => a.status)) ≠
      some ["approved"] := by decide

/-- C3 (amended): on the scenario-C input the aggregator emits exactly one
application for 0xAA with total allocated 1.5e18, lifecycle status "funded"
(the code marks any positive allocated+matched total as funded), a zero-amount
matched-funding entry, and one payout entry referencing root "0xR". -/
theorem scenarioC_aggregation_result :
    generateApplications none none 7 (some scenarioCAllocs) (some scenarioCRewards)
        (some scenarioCMerkle) =
      some { name := "Octant Epoch 7"
             applications := [{
               id := "eip155:1:0x0000000000000000000000000000000000000000?proposalId=1"
               grantPoolId := "eip155:1:0x0000000000000000000000000000000000000000?contractId=7"
               grantPoolName := "Octant Epoch 7"
               projectId := "eip155:1:0xAA?proposalId=1"
               projectName := "Project 0xAA..."
               fundsAsked := [⟨"0", "ETH", none⟩]
               fundsApproved := [⟨"1500000000000000000", "ETH", none⟩,
                 ⟨"0", "ETH", some "matched_funding"⟩]
               fundsApprovedInUSD := none
               status := "funded"
               payouts := [⟨"1500000000000000000", "0xR", "0xAA", "merkle_proof_epoch_7_0xAA"⟩] }]
             note := none
             epochStatus := "completed"
             hasAllocations := true
             hasRewards := true
             hasMerkleTree := true } := by decide

/-- Counterexample to C9 as stated: the Octant normalizer
`_generate_caip10_address` does not map the empty address to the empty string;
it returns the chain prefix with an empty address part. -/
theorem octant_normalizer_empty_address :
    generateCaip10Address none "" = "eip155:1:" ∧ generateCaip10Address none "" ≠ "" := by
  decide

/-- C9 (amended): both normalizers are pure total functions emitting
`eip155:<chainId>:<address>` — the Giveth one from its `network` argument with
default "1" and mapping the empty address to the empty string, the Octant one
from the loaded chain metadata's chain id (default 1, also when the metadata
has no chain id) for every address, including the empty one. -/
theorem address_normalizer_form :
    ∀ (ci : Option ChainInfo) (address network : String),
      (address ≠ "" →
        transformToCaip10 address network =
          "eip155:" ++ (if network = "" then "1" else network) ++ ":" ++ address) ∧
      transformToCaip10 "" network = "" ∧
      generateCaip10Address ci address =
        "eip155:" ++ toString ((ci.map (fun c => c.chainId.getD 1)).getD 1) ++ ":" ++ address := by
  intro ci address network
  refine ⟨fun h => ?_, rfl, ?_⟩
  · rw [transformToCaip10, if_neg h]
  · cases ci with
    | none => rfl
    | some c => rfl

/-- Witness for C9 (amended): concrete non-empty address under both
normalizers, with and without chain metadata. -/
theorem address_normalizer_form_witness :
    transformToCaip10 "0xAA" "" = "eip155:" ++ (if ("" : String) = "" then "1" else "") ++ ":" ++ "0xAA" ∧
    transformToCaip10 "" "10" = "" ∧
    generateCaip10Address (some ⟨some 10⟩) "0xAA" =
      "eip155:" ++ toString (((some ⟨some 10⟩ : Option ChainInfo).map
        (fun c => c.chainId.getD 1)).getD 1) ++ ":" ++ "0xAA" :=
  ⟨(address_normalizer_form (some ⟨some 10⟩) "0xAA" "").1 (by decide),
   (address_normalizer_form (some ⟨some 10⟩) "" "10").2.1,
   (address_normalizer_form (some ⟨some 10⟩) "0xAA" "").2.2⟩

/-- C5: when no exchange rate is resolvable for the epoch — the rate is not
cached and both the historical and the current lookups come back falsy — the
wei-to-USD conversion returns `None` ("unknown"), and in particular never the
string "0.00", for every wei amount string. -/
theorem usd_conversion_unresolvable_rate_unknown :
    ∀ (o : RateOracle) (s : RateCacheState) (e : Nat) (wei : String),
      lookupCache s.cache e = none →
      rateTruthy (o.hist s.histLog.length) = false →
      rateTruthy (o.curr s.currCalls) = false →
      (weiToUsdStrEpoch o s e wei).1 = none ∧
      (weiToUsdStrEpoch o s e wei).1 ≠ some "0.00" := by
  intro o s e wei hc hh hcu
  have hrate : (getEthRateForEpoch o s e).1 = o.curr s.currCalls := by
    unfold getEthRateForEpoch
    rw [hc]
    simp [hh]
  have hnone : weiToUsdStr (o.curr s.currCalls) wei = none := by
    cases hcv : o.curr s.currCalls with
    | none => rfl
    | some r =>
      have hr : r = 0 := by
        rw [hcv] at hcu
        simpa [rateTruthy] using hcu
      simp [weiToUsdStr, hr]
  constructor <;> simp [weiToUsdStrEpoch, hrate, hnone]

/-- Witness for C5: both rate endpoints failing on a fresh cache at epoch 7. -/
theorem usd_conversion_unresolvable_rate_unknown_witness :
    (weiToUsdStrEpoch ⟨fun _ => none, fun _ => none⟩ ⟨[], [], 0⟩ 7 "5").1 = none ∧
    (weiToUsdStrEpoch ⟨fun _ => none, fun _ => none⟩ ⟨[], [], 0⟩ 7 "5").1 ≠ some "0.00" :=
  usd_conversion_unresolvable_rate_unknown ⟨fun _ => none, fun _ => none⟩ ⟨[], [], 0⟩ 7 "5"
    (by decide) (by decide) (by decide)

/-- Counterexample to C6 as stated: a rate that fails to resolve is not
cached, so a second lookup for the same period issues a second historical-rate
request — with both endpoints failing, two lookups for period 5 log two
historical requests, refuting "at most one historical-rate request per
distinct period". -/
theorem rate_cache_refetches_after_failure :
    ¬ histCount 5 (runLookups ⟨fun _ => none, fun _ => none⟩ ⟨[], [], 0⟩ [5, 5]) ≤ 1 := by
  decide

/-- Cache entries already present keep winning first-match lookup after any
append (the cache only ever grows by appends). -/
theorem lookupCache_append_of_some {m : List (Nat × ℚ)} {e : Nat} {r : ℚ}
    (h : lookupCache m e = some r) (l : List (Nat × ℚ)) :
    lookupCache (m ++ l) e = some r := by
  unfold lookupCache at h ⊢
  rw [List.find?_append]
  cases hf : m.find? (fun kv => kv.1 == e) with
  | none => rw [hf] at h; cases h
  | some kv => rw [hf] at h; simpa using h

/-- Appending the entry for a previously missing key makes lookup find it. -/
theorem lookupCache_append_self {m : List (Nat × ℚ)} {e : Nat}
    (h : lookupCache m e = none) (r : ℚ) :
    lookupCache (m ++ [(e, r)]) e = some r := by
  unfold lookupCache at h ⊢
  rw [List.find?_append]
  cases hf : m.find? (fun kv => kv.1 == e) with
  | none => simp [List.find?]
  | some kv => rw [hf] at h; cases h

/-- Storing never changes the historical-request log. -/
theorem storeIfTruthy_histLog (s : RateCacheState) (e : Nat) (rate : Option ℚ) :
    (storeIfTruthy s e rate).histLog = s.histLog := by
  unfold storeIfTruthy
  split
  · split <;> rfl
  · rfl

/-- Storing either leaves the cache unchanged or appends the one entry for the
stored epoch. -/
theorem storeIfTruthy_cache (s : RateCacheState) (e : Nat) (rate : Option ℚ) :
    (storeIfTruthy s e rate).cache = s.cache ∨
    ∃ r, (storeIfTruthy s e rate).cache = s.cache ++ [(e, r)] := by
  unfold storeIfTruthy
  split
  · split
    · right
      exact ⟨_, rfl⟩
    · left
      rfl
  · left
    rfl

/-- On a cache miss, one lookup appends exactly one entry to the historical
log (the missed epoch) and grows the cache by at most the entry for that
epoch. -/
theorem getEthRateForEpoch_miss_shape (o : RateOracle) (s : RateCacheState)
    (e : Nat) (hc : lookupCache s.cache e = none) :
    ((getEthRateForEpoch o s e).2.cache = s.cache ∨
      ∃ r, (getEthRateForEpoch o s e).2.cache = s.cache ++ [(e, r)]) ∧
    (getEthRateForEpoch o s e).2.histLog = s.histLog ++ [e] := by
  unfold getEthRateForEpoch
  rw [hc]
  dsimp only
  by_cases hh : rateTruthy (o.hist s.histLog.length) = true
  · rw [if_pos hh]
    exact ⟨storeIfTruthy_cache _ _ _, storeIfTruthy_histLog _ _ _⟩
  · rw [if_neg hh]
    exact ⟨storeIfTruthy_cache _ _ _, storeIfTruthy_histLog _ _ _⟩

/-- One rate lookup for any epoch preserves an existing cache entry for `e`
and issues no historical-rate request for `e`. -/
theorem getEthRateForEpoch_preserves (o : RateOracle) (s : RateCacheState)
    (e' e : Nat) (r : ℚ) (h : lookupCache s.cache e = some r) :
    lookupCache (getEthRateForEpoch o s e').2.cache e = some r ∧
    histCount e (getEthRateForEpoch o s e').2 = histCount e s := by
  cases hc : lookupCache s.cache e' with
  | some r' =>
    have hstate : (getEthRateForEpoch o s e').2 = s := by
      unfold getEthRateForEpoch
      rw [hc]
    rw [hstate]
    exact ⟨h, rfl⟩
  | none =>
    have hne : e' ≠ e := by
      intro heq
      rw [heq, h] at hc
      cases hc
    obtain ⟨hcache, hlog⟩ := getEthRateForEpoch_miss_shape o s e' hc
    constructor
    · rcases hcache with hid | ⟨r', happ⟩
      · rw [hid]
        exact h
      · rw [happ]
        exact lookupCache_append_of_some h _
    · unfold histCount
      rw [hlog]
      simp [List.count_append, List.count_cons, hne]

/-- A whole sequence of later lookups preserves an existing cache entry and
issues no further historical-rate request for its epoch. -/
theorem runLookups_preserves (o : RateOracle) (es : List Nat) :
    ∀ (s : RateCacheState) (e : Nat) (r : ℚ), lookupCache s.cache e = some r →
      lookupCache (runLookups o s es).cache e = some r ∧
      histCount e (runLookups o s es) = histCount e s := by
  induction es with
  | nil => intro s e r h; exact ⟨h, rfl⟩
  | cons e' rest ih =>
    intro s e r h
    obtain ⟨h1, h2⟩ := getEthRateForEpoch_preserves o s e' e r h
    obtain ⟨h3, h4⟩ := ih (getEthRateForEpoch o s e').2 e r h1
    exact ⟨h3, by rw [runLookups, List.foldl_cons] at *; omega⟩

/-- Storing a truthy rate appends its cache entry. -/
theorem storeIfTruthy_store (s : RateCacheState) (e : Nat) (r : ℚ) (hr : r ≠ 0) :
    storeIfTruthy s e (some r) = { s with cache := s.cache ++ [(e, r)] } := by
  unfold storeIfTruthy
  dsimp only
  rw [if_pos hr]

/-- A lookup that returns a truthy rate leaves that rate stored in the cache. -/
theorem getEthRateForEpoch_stores (o : RateOracle) (s : RateCacheState)
    (e : Nat) (r : ℚ) (h : (getEthRateForEpoch o s e).1 = some r) (hr : r ≠ 0) :
    lookupCache (getEthRateForEpoch o s e).2.cache e = some r := by
  cases hc : lookupCache s.cache e with
  | some r' =>
    have hpair : (getEthRateForEpoch o s e) = (some r', s) := by
      unfold getEthRateForEpoch
      rw [hc]
    rw [hpair] at h ⊢
    cases h
    exact hc
  | none =>
    have hres := h
    unfold getEthRateForEpoch at hres ⊢
    rw [hc] at hres ⊢
    dsimp only at hres ⊢
    by_cases hh : rateTruthy (o.hist s.histLog.length) = true
    · rw [if_pos hh] at hres ⊢
      simp only at hres
      dsimp only
      rw [hres, storeIfTruthy_store _ _ _ hr]
      exact lookupCache_append_self hc r
    · rw [if_neg hh] at hres ⊢
      simp only at hres
      dsimp only
      rw [hres, storeIfTruthy_store _ _ _ hr]
      exact lookupCache_append_self hc r

/-- C6 (amended): the Rate Cache memoizes successful resolutions — once a
lookup for a period returns a truthy rate, that rate is stored in the
in-memory mapping before being returned, and no sequence of later lookups
issues another historical-rate request for that period (later lookups for it
are answered from the mapping).  When a lookup fails to resolve a rate,
nothing is cached and a later lookup for the same period fetches again (see
the counterexample). -/
theorem rate_cache_memoization_after_success :
    ∀ (o : RateOracle) (s : RateCacheState) (e : Nat) (es : List Nat) (r : ℚ),
      (getEthRateForEpoch o s e).1 = some r → r ≠ 0 →
      lookupCache (getEthRateForEpoch o s e).2.cache e = some r ∧
      histCount e (runLookups o (getEthRateForEpoch o s e).2 es) =
        histCount e (getEthRateForEpoch o s e).2 := by
  intro o s e es r h hr
  have hstored := getEthRateForEpoch_stores o s e r h hr
  exact ⟨hstored, (runLookups_preserves o es _ e r hstored).2⟩

/-- Witness for C6 (amended): a successful historical fetch of rate 2000 for
epoch 5 is cached, and two later lookups for epoch 5 add no historical
request. -/
theorem rate_cache_memoization_after_success_witness :
    lookupCache (getEthRateForEpoch ⟨fun _ => some 2000, fun _ => none⟩ ⟨[], [], 0⟩ 5).2.cache 5 =
      some 2000 ∧
    histCount 5 (runLookups ⟨fun _ => some 2000, fun _ => none⟩
        (getEthRateForEpoch ⟨fun _ => some 2000, fun _ => none⟩ ⟨[], [], 0⟩ 5).2 [5, 5]) =
      histCount 5 (getEthRateForEpoch ⟨fun _ => some 2000, fun _ => none⟩ ⟨[], [], 0⟩ 5).2 :=
  rate_cache_memoization_after_success ⟨fun _ => some 2000, fun _ => none⟩ ⟨[], [], 0⟩ 5 [5, 5] 2000
    (by decide) (by decide)

/-- On a retryable failure with attempts left, `_make_request` sleeps
`baseDelay * 2 ^ attempt` and recurses into the next attempt. -/
theorem makeRequestGo_retry_step {α : Type} (oracle : Nat → FetchOutcome α)
    (allow : Bool) (d : ℚ) (k n : Nat) (h : retryFailure allow (oracle k)) :
    makeRequestGo oracle allow d k (n + 2) =
      ((makeRequestGo oracle allow d (k + 1) (n + 1)).1,
        d * 2 ^ k :: (makeRequestGo oracle allow d (k + 1) (n + 1)).2) := by
  unfold makeRequestGo
  cases ho : oracle k with
  | ok b =>
    rw [ho] at h
    exact absurd h (by simp [retryFailure])
  | httpErr s =>
    have hs : isExpectedAbsence allow s = false := by rw [ho] at h; exact h
    dsimp only
    rw [hs]
    simp only [Bool.false_eq_true, if_false]
    rw [if_pos (Nat.succ_pos n)]
    rfl
  | netErr =>
    dsimp only
    rw [if_pos (Nat.succ_pos n)]
    rfl

/-- On a retryable failure at the last attempt, `_make_request` gives up and
returns absent with no further sleep. -/
theorem makeRequestGo_last {α : Type} (oracle : Nat → FetchOutcome α)
    (allow : Bool) (d : ℚ) (k : Nat) (h : retryFailure allow (oracle k)) :
    makeRequestGo oracle allow d k 1 = (none, []) := by
  unfold makeRequestGo
  cases ho : oracle k with
  | ok b =>
    rw [ho] at h
    exact absurd h (by simp [retryFailure])
  | httpErr s =>
    have hs : isExpectedAbsence allow s = false := by rw [ho] at h; exact h
    dsimp only
    rw [hs]
    simp
  | netErr =>
    dsimp only
    simp

/-- C7: with the expected-absence flag set, a 400 or 404 response ends the
fetch immediately — absent result, no sleep, no retry, at any attempt with any
number of attempts remaining; and when every one of the default 3 attempts
fails retryably, the fetcher sleeps `baseDelay * 2 ^ 0` and `baseDelay * 2 ^ 1`
between the attempts and then returns absent to the caller instead of raising. -/
theorem make_request_absence_and_backoff :
    ∀ {α : Type} (oracle : Nat → FetchOutcome α) (d : ℚ),
      (∀ (k n s : Nat), (s = 400 ∨ s = 404) → oracle k = FetchOutcome.httpErr s →
        makeRequestGo oracle true d k (n + 1) = (none, [])) ∧
      (∀ allow : Bool, (∀ i, i < defaultMaxRetries → retryFailure allow (oracle i)) →
        makeRequest oracle allow d defaultMaxRetries = (none, [d * 2 ^ 0, d * 2 ^ 1])) := by
  intro α oracle d
  constructor
  · intro k n s hs ho
    unfold makeRequestGo
    rw [ho]
    dsimp only
    have habs : isExpectedAbsence true s = true := by
      rcases hs with h | h <;> subst h <;> decide
    rw [habs]
    simp
  · intro allow h
    have h0 := h 0 (by decide)
    have h1 := h 1 (by decide)
    have h2 := h 2 (by decide)
    show makeRequestGo oracle allow d 0 3 = (none, [d * 2 ^ 0, d * 2 ^ 1])
    rw [show (3 : Nat) = 1 + 2 from rfl, makeRequestGo_retry_step oracle allow d 0 1 h0]
    rw [show (1 + 1 : Nat) = 0 + 2 from rfl, makeRequestGo_retry_step oracle allow d 1 0 h1]
    rw [makeRequestGo_last oracle allow d 2 h2]

/-- Witness for C7: an immediate 404 under the flag, and three straight
network failures with base delay 1. -/
theorem make_request_absence_and_backoff_witness :
    makeRequestGo (fun _ => FetchOutcome.httpErr (α := Unit) 404) true 1 0 3 = (none, []) ∧
    makeRequest (fun _ => FetchOutcome.netErr (α := Unit)) false 1 defaultMaxRetries =
      (none, [(1 : ℚ) * 2 ^ 0, 1 * 2 ^ 1]) :=
  ⟨(make_request_absence_and_backoff (fun _ => FetchOutcome.httpErr 404) 1).1 0 2 404
      (Or.inr rfl) rfl,
   (make_request_absence_and_backoff (fun _ => FetchOutcome.netErr) 1).2 false
      (fun i _ => by simp [retryFailure])⟩

/-- Dissection of a successful `buildApplication` with no reward record for
the project: status pending, single funds-approved entry, USD from the
allocated total, payouts from the (reward-less) payout block. -/
theorem buildApplication_no_reward (ci : Option ChainInfo) (rate : Option ℚ)
    (epoch counter : Nat) (p : String) (d : ProjectData)
    (rd : Option (List RawReward)) (md : Option MerkleData) (app : Application)
    (hfr : findReward rd p = none)
    (h : buildApplication ci rate epoch counter p d rd md = some app) :
    app.fundsApproved = [⟨toString d.totalAllocated, "ETH", none⟩] ∧
    app.fundsApprovedInUSD = weiToUsdStr rate (toString d.totalAllocated) ∧
    app.status = "pending" ∧
    app.payouts = computePayouts epoch none md p := by
  unfold buildApplication at h
  rw [hfr] at h
  simp only [computeStatus, Option.bind_some] at h
  cases h
  exact ⟨rfl, rfl, rfl, rfl⟩

/-- Dissection of a successful `buildApplication` with a reward record: the
matched-funding entry is always appended, the USD figure is recomputed from
the combined amount exactly when the matched conversion is truthy, and the
payouts come from the payout block with the reward present. -/
theorem buildApplication_with_reward (ci : Option ChainInfo) (rate : Option ℚ)
    (epoch counter : Nat) (p : String) (d : ProjectData)
    (rd : Option (List RawReward)) (md : Option MerkleData) (app : Application)
    (r : RawReward) (hfr : findReward rd p = some r)
    (h : buildApplication ci rate epoch counter p d rd md = some app) :
    ∃ mi, parsePyInt r.matched = some mi ∧
      app.fundsApproved = [⟨toString d.totalAllocated, "ETH", none⟩,
        ⟨r.matched, "ETH", some "matched_funding"⟩] ∧
      app.fundsApprovedInUSD =
        (if optStrTruthy (weiToUsdStr rate r.matched) then
          weiToUsdStr rate (toString (d.totalAllocated + mi))
        else weiToUsdStr rate (toString d.totalAllocated)) ∧
      app.payouts = computePayouts epoch (some r) md p := by
  unfold buildApplication at h
  rw [hfr] at h
  dsimp only at h
  cases hst : computeStatus (some r) with
  | none => rw [hst] at h; cases h
  | some st =>
    rw [hst] at h
    simp only [Option.pure_def, Option.bind_eq_bind, Option.some_bind'] at h
    cases hmi : parsePyInt r.matched with
    | none => rw [hmi] at h; cases h
    | some mi =>
      rw [hmi] at h
      simp only [Option.bind_eq_bind, Option.some_bind', Option.some.injEq] at h
      refine ⟨mi, rfl, ?_⟩
      by_cases ht : optStrTruthy (weiToUsdStr rate r.matched) = true
      · rw [if_pos ht] at h ⊢
        rw [← h]
        exact ⟨rfl, rfl, rfl⟩
      · rw [if_neg ht] at h ⊢
        rw [← h]
        exact ⟨rfl, rfl, rfl⟩

/-- Counterexample to C4 as stated: on the scenario-C input the reward's
matched amount is "0", yet the emitted application's fundsApproved list still
carries a second entry tagged "matched_funding" — the append happens whenever
a reward record exists, not only for non-zero matched amounts. -/
theorem matched_entry_appended_with_zero_matched :
    (generateApplications none none 7 (some scenarioCAllocs) (some scenarioCRewards)
        (some scenarioCMerkle)).map
      (fun o => o.applications.map (fun a => a.fundsApproved.map (fun f => f.type))) =
      some [[none, some "matched_funding"]] ∧
    scenarioCRewards = [⟨"0xAA", "1500000000000000000", "0"⟩] := by decide

/-- Two-decimal formatting never produces the empty string (it always
contains the decimal point). -/
theorem formatUsd2_ne_empty (q : ℚ) : formatUsd2 q ≠ "" := by
  unfold formatUsd2
  intro h
  have hl := congrArg String.length h
  simp only [String.length_append] at hl
  rw [show ("." : String).length = 1 from rfl] at hl
  rw [show ("" : String).length = 0 from rfl] at hl
  omega

/-- With a resolvable (truthy) rate and a parsable amount, the wei-to-USD
conversion returns a truthy (non-empty) string. -/
theorem weiToUsdStr_truthy (p : ℚ) (hp : p ≠ 0) (m : String) (mi : Int)
    (hm : parsePyInt m = some mi) : optStrTruthy (weiToUsdStr (some p) m) = true := by
  unfold weiToUsdStr
  dsimp only
  rw [if_neg hp, hm]
  simp [optStrTruthy, formatUsd2_ne_empty]

/-- C4 (amended): during aggregation of a Completed epoch, the second
funds-approved entry tagged "matched_funding" is appended exactly when the
project has a reward record — also when the matched amount is zero — and
whenever a reward record exists and the matched amount converts (the rate is
resolvable and the amount parses), the single reported USD figure is the
conversion of the combined allocated + matched amount, never of the allocated
portion alone. -/
theorem matched_funding_entry_and_usd_recomputation :
    ∀ (ci : Option ChainInfo) (rate : Option ℚ) (epoch counter : Nat) (p : String)
      (d : ProjectData) (rd : Option (List RawReward)) (md : Option MerkleData)
      (app : Application),
      buildApplication ci rate epoch counter p d rd md = some app →
      (findReward rd p = none →
        app.fundsApproved = [⟨toString d.totalAllocated, "ETH", none⟩]) ∧
      (∀ r, findReward rd p = some r →
        app.fundsApproved = [⟨toString d.totalAllocated, "ETH", none⟩,
          ⟨r.matched, "ETH", some "matched_funding"⟩] ∧
        (optStrTruthy (weiToUsdStr rate r.matched) = false →
          app.fundsApprovedInUSD = weiToUsdStr rate (toString d.totalAllocated)) ∧
        (∀ q mi, rate = some q → q ≠ 0 → parsePyInt r.matched = some mi →
          app.fundsApprovedInUSD = weiToUsdStr rate (toString (d.totalAllocated + mi)))) := by
  intro ci rate epoch counter p d rd md app h
  constructor
  · intro hfr
    exact (buildApplication_no_reward ci rate epoch counter p d rd md app hfr h).1
  · intro r hfr
    obtain ⟨mi, hmi, hfa, husd, _⟩ :=
      buildApplication_with_reward ci rate epoch counter p d rd md app r hfr h
    refine ⟨hfa, ?_, ?_⟩
    · intro hfalse
      rw [husd, if_neg (by rw [hfalse]; exact Bool.false_ne_true)]
    · intro q mi' hq hq0 hmi'
      have : mi' = mi := by rw [hmi] at hmi'; cases hmi'; rfl
      subst this
      rw [husd, if_pos (by rw [hq]; exact weiToUsdStr_truthy q hq0 r.matched mi' hmi')]

/-- Witness for C4 (amended): the scenario-C project with its zero-matched
reward record and an unresolvable rate — the matched entry is appended and the
USD figure stays the conversion of the allocated amount. -/
theorem matched_funding_entry_and_usd_recomputation_witness :
    (⟨"eip155:1:0x0000000000000000000000000000000000000000?proposalId=1",
      "eip155:1:0x0000000000000000000000000000000000000000?contractId=7",
      "Octant Epoch 7", "eip155:1:0xAA?proposalId=1", "Project 0xAA...",
      [⟨"0", "ETH", none⟩],
      [⟨"1500000000000000000", "ETH", none⟩, ⟨"0", "ETH", some "matched_funding"⟩],
      none, "funded",
      [⟨"1500000000000000000", "0xR", "0xAA", "merkle_proof_epoch_7_0xAA"⟩]⟩ :
        Application).fundsApproved =
      [⟨toString (⟨1500000000000000000, ["0xD1", "0xD2"], scenarioCAllocs⟩ :
          ProjectData).totalAllocated, "ETH", none⟩,
        ⟨(⟨"0xAA", "1500000000000000000", "0"⟩ : RawReward).matched, "ETH",
          some "matched_funding"⟩] :=
  ((matched_funding_entry_and_usd_recomputation none none 7 1 "0xAA"
      ⟨1500000000000000000, ["0xD1", "0xD2"], scenarioCAllocs⟩
      (some scenarioCRewards) (some scenarioCMerkle) _
      (by decide)).2 ⟨"0xAA", "1500000000000000000", "0"⟩ (by decide)).1

/-- The payout block never attaches more than one entry (first match wins,
then the loop breaks). -/
theorem computePayouts_length (epoch : Nat) (pr : Option RawReward)
    (md : Option MerkleData) (p : String) :
    (computePayouts epoch pr md p).length ≤ 1 := by
  unfold computePayouts
  split
  · split <;> simp
  · simp

/-- Without a reward record the payout block is skipped entirely. -/
theorem computePayouts_no_reward (epoch : Nat) (md : Option MerkleData) (p : String) :
    computePayouts epoch none md p = [] := by
  cases md <;> rfl

/-- A successful application's payouts are exactly the payout block's result. -/
theorem buildApplication_payouts (ci : Option ChainInfo) (rate : Option ℚ)
    (epoch counter : Nat) (p : String) (d : ProjectData)
    (rd : Option (List RawReward)) (md : Option MerkleData) (app : Application)
    (h : buildApplication ci rate epoch counter p d rd md = some app) :
    app.payouts = computePayouts epoch (findReward rd p) md p := by
  cases hfr : findReward rd p with
  | none =>
    rw [(buildApplication_no_reward ci rate epoch counter p d rd md app hfr h).2.2.2]
  | some r =>
    obtain ⟨mi, _, _, _, hp⟩ :=
      buildApplication_with_reward ci rate epoch counter p d rd md app r hfr h
    rw [hp]

/-- Sample input for the missing-payout counterexample: one allocation to
project 0xBB, a rewards document that has no record for 0xBB, and a merkle
tree containing a leaf for 0xBB. -/
def noRewardAllocs : List RawAllocation := [⟨"0xBB", "0xD1", "10"⟩]

/-- Rewards document present but with no record for project 0xBB. -/
def noRewardRewards : List RawReward := [⟨"0xAA", "5", "0"⟩]

/-- Merkle tree with root 0xR and a leaf whose address is exactly 0xBB. -/
def noRewardMerkle : MerkleData := ⟨"0xR", [⟨"0xBB", "10"⟩]⟩

/-- Counterexample to C8 as stated: project 0xBB has allocations and the
merkle data contains a leaf matching its address exactly, yet the emitted
application carries no payout entry, because the payout block also requires a
reward record for the project and 0xBB has none. -/
theorem payout_missing_without_reward_record :
    (noRewardMerkle.leaves.find? (fun l => l.address == "0xBB")).isSome = true ∧
    (generateApplications none none 3 (some noRewardAllocs) (some noRewardRewards)
        (some noRewardMerkle)).map
      (fun o => o.applications.map (fun a => a.payouts)) = some [[]] := by decide

/-- C8 (amended): in a Completed epoch a project's application gets at most
one payout entry; it gets none when the project has no reward record (even if
a merkle leaf matches), and with a reward record it gets exactly the first
merkle leaf matching its address — amount, root, and the project address as
recipient — or none when no leaf matches. -/
theorem payout_attachment_per_project :
    ∀ (ci : Option ChainInfo) (rate : Option ℚ) (epoch counter : Nat) (p : String)
      (d : ProjectData) (rd : Option (List RawReward)) (md : Option MerkleData)
      (app : Application),
      buildApplication ci rate epoch counter p d rd md = some app →
      app.payouts.length ≤ 1 ∧
      (findReward rd p = none → app.payouts = []) ∧
      (∀ r t, findReward rd p = some r → md = some t →
        (∀ leaf, t.leaves.find? (fun l => l.address == p) = some leaf →
          app.payouts = [⟨leaf.amount, t.root, p,
            "merkle_proof_epoch_" ++ toString epoch ++ "_" ++ p⟩]) ∧
        (t.leaves.find? (fun l => l.address == p) = none → app.payouts = [])) := by
  intro ci rate epoch counter p d rd md app h
  have hp := buildApplication_payouts ci rate epoch counter p d rd md app h
  refine ⟨?_, ?_, ?_⟩
  · rw [hp]
    exact computePayouts_length epoch (findReward rd p) md p
  · intro hfr
    rw [hp, hfr]
    exact computePayouts_no_reward epoch md p
  · intro r t hfr hmd
    constructor
    · intro leaf hleaf
      rw [hp, hfr, hmd]
      unfold computePayouts
      dsimp only
      rw [hleaf]
    · intro hleaf
      rw [hp, hfr, hmd]
      unfold computePayouts
      dsimp only
      rw [hleaf]

/-- Witness for C8 (amended): project 0xBB's application (no reward record,
matching merkle leaf present) carries no payout entry. -/
theorem payout_attachment_per_project_witness :
    (⟨"eip155:1:0x0000000000000000000000000000000000000000?proposalId=1",
      "eip155:1:0x0000000000000000000000000000000000000000?contractId=3",
      "Octant Epoch 3", "eip155:1:0xBB?proposalId=1", "Project 0xBB...",
      [⟨"0", "ETH", none⟩], [⟨"10", "ETH", none⟩], none, "pending", []⟩ :
        Application).payouts = [] :=
  (payout_attachment_per_project none none 3 1 "0xBB" ⟨10, ["0xD1"], noRewardAllocs⟩
      (some noRewardRewards) (some noRewardMerkle)
      ⟨"eip155:1:0x0000000000000000000000000000000000000000?proposalId=1",
       "eip155:1:0x0000000000000000000000000000000000000000?contractId=3",
       "Octant Epoch 3", "eip155:1:0xBB?proposalId=1", "Project 0xBB...",
       [⟨"0", "ETH", none⟩], [⟨"10", "ETH", none⟩], none, "pending", []⟩
      (by decide)).2.1 (by decide)

/-- The grouping loop succeeds whenever every amount string parses. -/
theorem groupAllocationsAux_total :
    ∀ (l : List RawAllocation) (acc : List (String × ProjectData)),
      (∀ a ∈ l, (parsePyInt a.amount).isSome) → (groupAllocationsAux acc l).isSome := by
  intro l
  induction l with
  | nil =>
    intro acc h
    simp [groupAllocationsAux]
  | cons a rest ih =>
    intro acc h
    obtain ⟨amt, hamt⟩ := Option.isSome_iff_exists.mp (h a (List.mem_cons_self a rest))
    simp only [groupAllocationsAux]
    rw [hamt]
    exact ih _ (fun x hx => h x (List.mem_cons_of_mem a hx))

/-- The status determination succeeds when both reward amounts parse. -/
theorem computeStatus_total (r : RawReward)
    (ha : (parsePyInt r.allocated).isSome) (hm : (parsePyInt r.matched).isSome) :
    (computeStatus (some r)).isSome := by
  obtain ⟨a, hpa⟩ := Option.isSome_iff_exists.mp ha
  obtain ⟨m, hpm⟩ := Option.isSome_iff_exists.mp hm
  simp [computeStatus, hpa, hpm]

/-- One application is always built when every reward record of the document
has parsable allocated and matched amounts. -/
theorem buildApplication_total (ci : Option ChainInfo) (rate : Option ℚ)
    (epoch counter : Nat) (p : String) (d : ProjectData)
    (rd : Option (List RawReward)) (md : Option MerkleData)
    (hrw : ∀ rs, rd = some rs → ∀ r ∈ rs,
      (parsePyInt r.allocated).isSome ∧ (parsePyInt r.matched).isSome) :
    (buildApplication ci rate epoch counter p d rd md).isSome := by
  unfold buildApplication
  cases hfr : findReward rd p with
  | none =>
    simp [computeStatus]
  | some r =>
    have hmem : ∃ rs, rd = some rs ∧ r ∈ rs := by
      cases rd with
      | none => cases hfr
      | some rs =>
        refine ⟨rs, rfl, ?_⟩
        exact List.mem_of_find?_eq_some hfr
    obtain ⟨rs, hrd, hr⟩ := hmem
    obtain ⟨ha, hm⟩ := hrw rs hrd r hr
    obtain ⟨st, hst⟩ := Option.isSome_iff_exists.mp (computeStatus_total r ha hm)
    obtain ⟨mi, hmi⟩ := Option.isSome_iff_exists.mp hm
    dsimp only
    rw [hst]
    simp only [Option.pure_def, Option.bind_eq_bind, Option.some_bind']
    rw [hmi]
    simp

/-- The application loop succeeds when every reward record parses. -/
theorem buildApplications_total (ci : Option ChainInfo) (rate : Option ℚ)
    (epoch : Nat) (rd : Option (List RawReward)) (md : Option MerkleData)
    (hrw : ∀ rs, rd = some rs → ∀ r ∈ rs,
      (parsePyInt r.allocated).isSome ∧ (parsePyInt r.matched).isSome) :
    ∀ (groups : List (String × ProjectData)) (counter : Nat),
      (buildApplications ci rate epoch counter groups rd md).isSome := by
  intro groups
  induction groups with
  | nil =>
    intro counter
    simp [buildApplications]
  | cons g rest ih =>
    intro counter
    obtain ⟨app, happ⟩ := Option.isSome_iff_exists.mp
      (buildApplication_total ci rate epoch counter g.1 g.2 rd md hrw)
    obtain ⟨apps, happs⟩ := Option.isSome_iff_exists.mp (ih (counter + 1))
    simp [buildApplications, happ, happs]

/-- C10: aggregation is total exactly under the integer precondition — when
every allocation amount and every reward allocated/matched string parses as an
integer, `generate_applications` returns a result (no conversion raises);
and on a concrete input whose allocation amount is not an integer literal, the
call raises (the model returns `none`) instead of containing the failure in
that epoch's output. -/
theorem aggregation_totality_and_parse_failure :
    (∀ (ci : Option ChainInfo) (rate : Option ℚ) (epoch : Nat)
      (ad : Option (List RawAllocation)) (rd : Option (List RawReward))
      (md : Option MerkleData),
      (∀ a ∈ ad.getD [], (parsePyInt a.amount).isSome) →
      (∀ rs, rd = some rs → ∀ r ∈ rs,
        (parsePyInt r.allocated).isSome ∧ (parsePyInt r.matched).isSome) →
      (generateApplications ci rate epoch ad rd md).isSome) ∧
    generateApplications none none 1 (some [⟨"0xAA", "0xD1", "not_an_integer"⟩])
      (some []) (some ⟨"0xR", []⟩) = none := by
  constructor
  · intro ci rate epoch ad rd md hall hrw
    unfold generateApplications
    dsimp only
    split
    · obtain ⟨groups, hg⟩ := Option.isSome_iff_exists.mp
        (show (groupAllocations (ad.getD [])).isSome from
          groupAllocationsAux_total _ [] hall)
      obtain ⟨apps, happs⟩ := Option.isSome_iff_exists.mp
        (buildApplications_total ci rate epoch rd md hrw groups 1)
      simp [hg, happs]
    · simp
  · decide

/-- Witness for C10: the fully parsable scenario-C input aggregates to a
result. -/
theorem aggregation_totality_and_parse_failure_witness :
    (generateApplications none none 7 (some scenarioCAllocs) (some scenarioCRewards)
        (some scenarioCMerkle)).isSome = true :=
  aggregation_totality_and_parse_failure.1 none none 7 (some scenarioCAllocs)
    (some scenarioCRewards) (some scenarioCMerkle)
    (by decide) (by intro rs h; cases h; decide)
